import Mathlib

/-!
Verification of the wrap-up coordination logic of the
`wxcc-widget-iframe-enhanced` widget (`src/index.js`).

The widget's interesting behaviour is a small state machine: `endCall`
ends the current interaction and either applies a wrap-up code at once
(when the end response already reports the `wrapUp` state) or records the
code as pending; the lifecycle-event handler later applies or discards the
pending entry.  We embed that logic shallowly: the SDK (`Desktop.*`) is an
environment record of oracle data, the outbound SDK requests become an
explicit trace of events, and `logger` calls become a trace of
level-tagged log entries.  All component state that the logic touches
(`this.state.defaultAuxCode`, `this._pendingWrapups`,
`this._isSdkInitialized`, `this.defaultWrapCode`) is an explicit record.
-/

/-- Log severity of a `logger.info` / `logger.warn` / `logger.error` call. -/
inductive LogLevel where
  | info
  | warn
  | error
  deriving DecidableEq

/-- Log entry: a level together with a short tag naming the source message. -/
abbrev LogE := LogLevel × String

def LogLevel.isError : LogLevel → Bool
  | .error => true
  | _ => false

def LogLevel.isWarn : LogLevel → Bool
  | .warn => true
  | _ => false

/-- Value stored in `this.state.defaultAuxCode`: the numeric sentinel `0`
set in the constructor, or an idle-code id string copied from the list. -/
inductive AuxVal where
  | num (n : Nat)
  | str (s : String)
  deriving DecidableEq

/-- Entry of `Desktop.agentStateInfo.latestData.idleCodes`. -/
structure IdleCode where
  id : String
  isDefault : Bool
  deriving DecidableEq

/-- Entry of `Desktop.agentStateInfo.latestData.wrapupCodes`. -/
structure WrapupCode where
  id : String
  name : String
  deriving DecidableEq

/-- Value of the task map used by `getInteractionId`. -/
structure TaskEntry where
  interactionId : String
  deriving DecidableEq

/-- Result object of `Desktop.agentContact.end`; `interactionState` models
the optional chain `endResponse?.data?.interaction?.state`. -/
structure EndResponse where
  interactionState : Option String
  deriving DecidableEq

/-- Outbound SDK requests, plus an explicit marker for each invocation of
the apply step `_applyWrapupCode` (the marker lets theorems count apply
attempts separately from the bus request the attempt may issue). -/
inductive Event where
  | endReq (interactionId : String)
  | applyAttempt (interactionId : String) (wrapupCodeId : String)
  | wrapupReq (interactionId : String) (auxCodeId : String) (wrapUpReason : String)
  | stateChangeReq (state : String) (auxCodeIdArray : AuxVal)
  deriving DecidableEq

def Event.isApplyAttempt : Event → Bool
  | .applyAttempt _ _ => true
  | _ => false

def Event.isWrapupReq : Event → Bool
  | .wrapupReq _ _ _ => true
  | _ => false

/-- Oracle data for the SDK: directory data, the current task map, and the
outcomes of the asynchronous bus requests an operation may issue. -/
structure Env where
  idleCodes : Option (List IdleCode)
  wrapupCodes : Option (List WrapupCode)
  taskMap : List (String × TaskEntry)
  endResult : Option EndResponse
  applyOk : Bool
  stateChangeOk : Bool
  deriving DecidableEq

/-- Mutable component state of `IframeWagentSDK` that the coordinator
logic reads or writes. -/
structure ComponentState where
  defaultAuxCode : AuxVal
  pendingWrapups : List (String × String)
  isSdkInitialized : Bool
  defaultWrapCode : Option String
  deriving DecidableEq

/-- Result of one operation: the new component state, the trace of SDK
requests issued, and the log entries written. -/
structure OpResult where
  st : ComponentState
  events : List Event
  logs : List LogE
  deriving DecidableEq

/-! JS `Map` operations on the association-list model of
`this._pendingWrapups` (a real `Map` has unique keys; `mapSet` replaces
the entry in place when the key exists, else appends). -/

def mapGet : List (String × String) → String → Option String
  | [], _ => none
  | p :: rest, k => if p.1 = k then some p.2 else mapGet rest k

def mapSet : List (String × String) → String → String → List (String × String)
  | [], k, v => [(k, v)]
  | p :: rest, k, v => if p.1 = k then (k, v) :: rest else p :: mapSet rest k v

def mapDelete : List (String × String) → String → List (String × String)
  | [], _ => []
  | p :: rest, k => if p.1 = k then mapDelete rest k else p :: mapDelete rest k

/-- JS truthiness of a `string | null | undefined` value: `null`,
`undefined` and the empty string are falsy. -/
def optTruthy : Option String → Bool
  | none => false
  | some s => decide (s ≠ "")

/-- Embeds `getInteractionId` (src/index.js lines 114-121): return the
`interactionId` of the first entry of the task map, else `null`. -/
def getInteractionId (taskMap : List (String × TaskEntry)) : Option String :=
  match taskMap with
  | [] => none
  | (_, value) :: _ => some value.interactionId

/-- Embeds `_getWrapupCodeDetails` (lines 128-137): first wrap-up code of
the directory list whose `id` equals the requested id; a warning is logged
when none is found. -/
def _getWrapupCodeDetails (env : Env) (wrapupCodeId : String) :
    Option WrapupCode × List LogE :=
  let wrapupCodes := env.wrapupCodes.getD []
  match wrapupCodes.find? (fun code => code.id == wrapupCodeId) with
  | none => (none, [(LogLevel.warn, "wrapup code details not found")])
  | some foundCode => (some foundCode, [])

/-- Embeds `_applyWrapupCode` (lines 183-233).  Looks up the code details;
on a miss logs an error and issues nothing; when the found entry has a
truthy `id` and `name` it issues the wrap-up request (which succeeds or
fails per `env.applyOk`, affecting only logging); otherwise logs an error.
The `finally` clause always deletes the pending entry afterwards. -/
def _applyWrapupCode (env : Env) (s : ComponentState)
    (interactionId wrapupCodeId : String) : OpResult :=
  let lookup := _getWrapupCodeDetails env wrapupCodeId
  let base : OpResult :=
    match lookup.1 with
    | none =>
        { st := s
          events := [Event.applyAttempt interactionId wrapupCodeId]
          logs := lookup.2 ++ [(LogLevel.error, "wrapup code id not found")] }
    | some wrapupCodeDetails =>
        let auxCode := wrapupCodeDetails.id
        let wrapUpReason := wrapupCodeDetails.name
        if auxCode ≠ "" ∧ wrapUpReason ≠ "" then
          let callLogs : List LogE :=
            if env.applyOk then [(LogLevel.info, "wrapup applied successfully")]
            else [(LogLevel.error, "error applying wrapup code")]
          { st := s
            events := [Event.applyAttempt interactionId wrapupCodeId,
                       Event.wrapupReq interactionId auxCode wrapUpReason]
            logs := lookup.2 ++ (LogLevel.info, "applying wrapup") :: callLogs }
        else
          { st := s
            events := [Event.applyAttempt interactionId wrapupCodeId]
            logs := lookup.2 ++ [(LogLevel.error, "auxcode or reason undefined")] }
  { base with
    st := { base.st with
              pendingWrapups := mapDelete base.st.pendingWrapups interactionId } }

/-- Embeds `_handleInteractionStateChange` (lines 145-176).  On
`"Wrapup"`, a truthy pending entry is applied (the apply step deletes it);
on `"Closed"` or `"Ended"`, a still-present entry is discarded with a
warning.  Both `if` statements run in sequence, as in the source. -/
def _handleInteractionStateChange (env : Env) (s : ComponentState)
    (interactionId newState : String) : OpResult :=
  let logs0 : List LogE :=
    [(LogLevel.info, "handler triggered"), (LogLevel.info, "state changed")]
  let r1 : OpResult :=
    if newState = "Wrapup" then
      match mapGet s.pendingWrapups interactionId with
      | some wrapupCodeId =>
          if wrapupCodeId ≠ "" then
            let a := _applyWrapupCode env s interactionId wrapupCodeId
            { a with
              logs := logs0 ++ (LogLevel.info, "applying pending wrapup") :: a.logs }
          else
            { st := s, events := []
              logs := logs0 ++ [(LogLevel.info, "no pending wrapup code found")] }
      | none =>
          { st := s, events := []
            logs := logs0 ++ [(LogLevel.info, "no pending wrapup code found")] }
    else
      { st := s, events := [], logs := logs0 }
  if newState = "Closed" ∨ newState = "Ended" then
    if (mapGet r1.st.pendingWrapups interactionId).isSome then
      { st := { r1.st with
                  pendingWrapups := mapDelete r1.st.pendingWrapups interactionId }
        events := r1.events
        logs := r1.logs ++ [(LogLevel.warn, "cleared pending wrapup on terminal state")] }
    else r1
  else r1

/-- Embeds `endCall` (lines 241-290).  Resolves the interaction id and
applies the JS falsy guard `if (!interactionId)` of line 243: a null or
empty-string id warns and stops (no request, no table write).  Otherwise
issues the end request; on success applies the code immediately when the
response state is the literal string `"wrapUp"` and a truthy code was
supplied, else queues a truthy code as pending; on request failure deletes
any pending entry for the interaction, but only when a truthy code was
supplied to this call. -/
def endCall (env : Env) (s : ComponentState) (wrapupCodeId : Option String) :
    OpResult :=
  match getInteractionId env.taskMap with
  | none =>
      { st := s, events := []
        logs := [(LogLevel.warn, "no active interaction id found")] }
  | some interactionId =>
      if interactionId = "" then
        { st := s, events := []
          logs := [(LogLevel.warn, "no active interaction id found")] }
      else
      match env.endResult with
      | some endResponse =>
          let sentLog : LogE := (LogLevel.info, "call end request sent")
          let interactionStateFromResult := endResponse.interactionState
          match wrapupCodeId with
          | some c =>
              if c ≠ "" ∧ interactionStateFromResult = some "wrapUp" then
                let a := _applyWrapupCode env s interactionId c
                { a with
                  events := Event.endReq interactionId :: a.events
                  logs := sentLog ::
                    (LogLevel.info, "immediate wrapup state after end") :: a.logs }
              else if c ≠ "" then
                { st := { s with
                    pendingWrapups := mapSet s.pendingWrapups interactionId c }
                  events := [Event.endReq interactionId]
                  logs := [sentLog, (LogLevel.info, "queued wrapup code")] }
              else
                { st := s, events := [Event.endReq interactionId], logs := [sentLog] }
          | none =>
              { st := s, events := [Event.endReq interactionId], logs := [sentLog] }
      | none =>
          let errLog : LogE := (LogLevel.error, "error ending call")
          match wrapupCodeId with
          | some c =>
              if c ≠ "" then
                { st := { s with
                    pendingWrapups := mapDelete s.pendingWrapups interactionId }
                  events := [Event.endReq interactionId]
                  logs := [errLog,
                    (LogLevel.warn, "removed pending wrapup due to end failure")] }
              else
                { st := s, events := [Event.endReq interactionId], logs := [errLog] }
          | none =>
              { st := s, events := [Event.endReq interactionId], logs := [errLog] }

/-- Embeds `changeState` (lines 292-387).  Rejects every command while the
SDK flag is false; otherwise dispatches on the command name.  The
`debugMode` alert is a UI side effect with no SDK call or state change and
is not modelled. -/
def changeState (env : Env) (s : ComponentState) (command : String) : OpResult :=
  if s.isSdkInitialized = false then
    { st := s, events := []
      logs := [(LogLevel.warn, "state change attempted before sdk ready")] }
  else
    let baseLog : LogE := (LogLevel.info, "changeState called")
    if command = "Available" then
      { st := s
        events := [Event.stateChangeReq "Available" (AuxVal.str "0")]
        logs := baseLog ::
          (if env.stateChangeOk then [(LogLevel.info, "state changed")]
           else [(LogLevel.error, "error changing state to available")]) }
    else if command = "Idle" then
      { st := s
        events := [Event.stateChangeReq "Idle" s.defaultAuxCode]
        logs := baseLog ::
          (if env.stateChangeOk then [(LogLevel.info, "state changed to idle")]
           else [(LogLevel.error, "error changing state to idle")]) }
    else if command = "EndTask" then
      let r := endCall env s s.defaultWrapCode
      { r with logs := baseLog :: r.logs ++ [(LogLevel.info, "task end initiated")] }
    else if command = "EndTaskAvail" then
      let r := endCall env s s.defaultWrapCode
      { st := r.st
        events := r.events ++ [Event.stateChangeReq "Available" (AuxVal.str "0")]
        logs := baseLog :: r.logs ++ (LogLevel.info, "task end initiated") ::
          (if env.stateChangeOk then [(LogLevel.info, "state change to available initiated")]
           else [(LogLevel.error, "error ending task or changing state")]) }
    else if command = "EndTaskIdle" then
      let r := endCall env s s.defaultWrapCode
      { st := r.st
        events := r.events ++ [Event.stateChangeReq "Idle" r.st.defaultAuxCode]
        logs := baseLog :: r.logs ++ (LogLevel.info, "task end initiated") ::
          (if env.stateChangeOk then [(LogLevel.info, "state change to idle initiated")]
           else [(LogLevel.error, "error ending task or changing state")]) }
    else
      { st := s, events := [], logs := [baseLog, (LogLevel.warn, "unknown state")] }

/-- Embeds the `for ... of` loop body of `_findDefaultAuxCode` (lines
98-106): first element with `isDefault === true`, scanning in order and
breaking at the first hit. -/
def findDefaultLoop : List IdleCode → Option IdleCode
  | [] => none
  | auxCodeItem :: rest =>
      if auxCodeItem.isDefault = true then some auxCodeItem
      else findDefaultLoop rest

/-- Embeds `_findDefaultAuxCode` (lines 94-112): with a non-empty list,
store the id of the first default-flagged element (the stored value is
unchanged when none is flagged); an empty or absent list only logs. -/
def _findDefaultAuxCode (idleCodes : Option (List IdleCode)) (cur : AuxVal) :
    AuxVal × List LogE :=
  let codes := idleCodes.getD []
  if codes.length > 0 then
    match findDefaultLoop codes with
    | some auxCodeItem =>
        (AuxVal.str auxCodeItem.id, [(LogLevel.info, "default aux found")])
    | none => (cur, [])
  else (cur, [(LogLevel.info, "idleCodes data is empty")])

/-! Trace helpers used by the theorems. -/

def applyAttempts (evs : List Event) : List Event :=
  evs.filter Event.isApplyAttempt

def wrapupReqs (evs : List Event) : List Event :=
  evs.filter Event.isWrapupReq

def errorCount (logs : List LogE) : Nat :=
  (logs.filter (fun l => l.1.isError)).length

def warnCount (logs : List LogE) : Nat :=
  (logs.filter (fun l => l.1.isWarn)).length

/-- Number of entries of the table carrying a given key. -/
def countKey (m : List (String × String)) (k : String) : Nat :=
  (m.filter (fun p => p.1 == k)).length


/-- The list of interaction ids holding entries in the table. -/
def keysOf (m : List (String × String)) : List String := m.map Prod.fst

/-- Well-formedness of the pending table: every stored wrap-up code id is
truthy (non-empty).  `endCall` only ever stores codes that pass the JS
truthiness guard, so every reachable table satisfies this. -/
def TableWF (m : List (String × String)) : Prop := ∀ p ∈ m, p.2 ≠ ""

/-! Fixtures used by witnesses and counterexamples. -/

/-- Component state right after a successful bootstrap: empty pending
table, sentinel default aux code. -/
def sInit : ComponentState :=
  { defaultAuxCode := AuxVal.num 0, pendingWrapups := [],
    isSdkInitialized := true, defaultWrapCode := none }

/-- State with one pending wrap-up recorded for interaction `int4`. -/
def sPending4 : ComponentState :=
  { sInit with pendingWrapups := [("int4", "wrapD")] }

/-- State with a previously recorded pending wrap-up for `int1`. -/
def sPrior : ComponentState :=
  { sInit with pendingWrapups := [("int1", "old")] }

/-- State before the SDK bootstrap has completed. -/
def sNotReady : ComponentState :=
  { sInit with isSdkInitialized := false }

/-- Environment whose end request succeeds reporting state `active`. -/
def envBase : Env :=
  { idleCodes := none
    wrapupCodes := some [{ id := "wrapA", name := "Customer Resolved" }]
    taskMap := [("t1", { interactionId := "int1" })]
    endResult := some { interactionState := some "active" }
    applyOk := true, stateChangeOk := true }

/-- Environment whose end request reports the literal state `wrapUp` (the
spelling the code compares against). -/
def envWrapUpLow : Env :=
  { envBase with endResult := some { interactionState := some "wrapUp" } }

/-- Environment whose end request reports the literal state `Wrapup` (the
spelling used by lifecycle events and by the claim text). -/
def envWrapupCap : Env :=
  { envBase with endResult := some { interactionState := some "Wrapup" } }

/-- Environment whose end request fails. -/
def envEndFail : Env :=
  { envBase with endResult := none }

/-- Environment whose directory lists a wrap-up code with an empty name. -/
def envFalsyName : Env :=
  { envBase with wrapupCodes := some [{ id := "w", name := "" }] }

/-! Lemmas about the `Map` model. -/

theorem mapGet_mapSet_self (m : List (String × String)) (k v : String) :
    mapGet (mapSet m k v) k = some v := by
  induction m with
  | nil => simp [mapSet, mapGet]
  | cons p rest ih =>
      by_cases h : p.1 = k
      · simp [mapSet, mapGet, h]
      · simp [mapSet, mapGet, h, ih]

theorem mapGet_mapDelete_self (m : List (String × String)) (k : String) :
    mapGet (mapDelete m k) k = none := by
  induction m with
  | nil => simp [mapDelete, mapGet]
  | cons p rest ih =>
      by_cases h : p.1 = k
      · simp [mapDelete, h, ih]
      · simp [mapDelete, mapGet, h, ih]

theorem mem_mapSet {p : String × String} {m : List (String × String)} {k v : String}
    (h : p ∈ mapSet m k v) : p = (k, v) ∨ p ∈ m := by
  induction m with
  | nil => simpa [mapSet] using h
  | cons q rest ih =>
      by_cases hq : q.1 = k
      · rw [show mapSet (q :: rest) k v = (k, v) :: rest by simp [mapSet, hq]] at h
        rcases List.mem_cons.mp h with h1 | h1
        · exact Or.inl h1
        · exact Or.inr (List.mem_cons_of_mem _ h1)
      · rw [show mapSet (q :: rest) k v = q :: mapSet rest k v by simp [mapSet, hq]] at h
        rcases List.mem_cons.mp h with h1 | h1
        · exact Or.inr (by rw [h1]; exact List.mem_cons_self _ _)
        · rcases ih h1 with h2 | h2
          · exact Or.inl h2
          · exact Or.inr (List.mem_cons_of_mem _ h2)

theorem mem_mapDelete {p : String × String} {m : List (String × String)} {k : String}
    (h : p ∈ mapDelete m k) : p ∈ m := by
  induction m with
  | nil => simp [mapDelete] at h
  | cons q rest ih =>
      by_cases hq : q.1 = k
      · rw [show mapDelete (q :: rest) k = mapDelete rest k by simp [mapDelete, hq]] at h
        exact List.mem_cons_of_mem _ (ih h)
      · rw [show mapDelete (q :: rest) k = q :: mapDelete rest k by simp [mapDelete, hq]] at h
        rcases List.mem_cons.mp h with h1 | h1
        · rw [h1]; exact List.mem_cons_self _ _
        · exact List.mem_cons_of_mem _ (ih h1)

theorem mem_keysOf {a : String} {m : List (String × String)} :
    a ∈ keysOf m ↔ ∃ b, (a, b) ∈ m := by
  constructor
  · intro h
    rcases List.mem_map.mp h with ⟨p, hp, he⟩
    exact ⟨p.2, by rw [← he]; simpa using hp⟩
  · rintro ⟨b, hb⟩
    exact List.mem_map.mpr ⟨(a, b), hb, rfl⟩

theorem mem_keysOf_mapSet {a k v : String} {m : List (String × String)}
    (h : a ∈ keysOf (mapSet m k v)) : a = k ∨ a ∈ keysOf m := by
  rcases mem_keysOf.mp h with ⟨b, hb⟩
  rcases mem_mapSet hb with h1 | h1
  · exact Or.inl (congrArg Prod.fst h1)
  · exact Or.inr (mem_keysOf.mpr ⟨b, h1⟩)

theorem nodup_keysOf_mapSet (k v : String) {m : List (String × String)}
    (h : (keysOf m).Nodup) : (keysOf (mapSet m k v)).Nodup := by
  induction m with
  | nil => simp [mapSet, keysOf]
  | cons p rest ih =>
      rcases List.nodup_cons.mp h with ⟨h1, h2⟩
      by_cases hp : p.1 = k
      · rw [show keysOf (mapSet (p :: rest) k v) = k :: keysOf rest by
          simp [mapSet, hp, keysOf]]
        exact List.nodup_cons.mpr ⟨by rw [← hp]; exact h1, h2⟩
      · rw [show keysOf (mapSet (p :: rest) k v) = p.1 :: keysOf (mapSet rest k v) by
          simp [mapSet, hp, keysOf]]
        refine List.nodup_cons.mpr ⟨?_, ih h2⟩
        intro hmem
        rcases mem_keysOf_mapSet hmem with he | he
        · exact hp he
        · exact h1 he

theorem countKey_cons (p : String × String) (rest : List (String × String)) (k : String) :
    countKey (p :: rest) k = (if p.1 = k then 1 else 0) + countKey rest k := by
  by_cases hp : p.1 = k
  · simp [countKey, List.filter_cons, hp, Nat.add_comm]
  · simp [countKey, List.filter_cons, hp]

theorem countKey_eq_zero_of_not_mem {m : List (String × String)} {k : String}
    (h : k ∉ keysOf m) : countKey m k = 0 := by
  induction m with
  | nil => rfl
  | cons p rest ih =>
      have hp : ¬ p.1 = k := fun he => h (by rw [← he]; exact List.mem_cons_self _ _)
      have hrest : k ∉ keysOf rest := fun hm => h (List.mem_cons_of_mem _ hm)
      rw [countKey_cons, if_neg hp, ih hrest]

theorem countKey_mapSet_self (k v : String) {m : List (String × String)}
    (h : (keysOf m).Nodup) : countKey (mapSet m k v) k = 1 := by
  induction m with
  | nil => simp [mapSet, countKey, List.filter]
  | cons p rest ih =>
      rcases List.nodup_cons.mp h with ⟨h1, h2⟩
      by_cases hp : p.1 = k
      · have hrest : countKey rest k = 0 :=
          countKey_eq_zero_of_not_mem (by rw [← hp]; exact h1)
        rw [show mapSet (p :: rest) k v = (k, v) :: rest by simp [mapSet, hp]]
        rw [countKey_cons, if_pos rfl, hrest]
      · rw [show mapSet (p :: rest) k v = p :: mapSet rest k v by simp [mapSet, hp]]
        rw [countKey_cons, if_neg hp, ih h2]

theorem tableWF_mapSet {m : List (String × String)} {k v : String}
    (h : TableWF m) (hv : v ≠ "") : TableWF (mapSet m k v) := by
  intro p hp
  rcases mem_mapSet hp with h1 | h1
  · rw [h1]; exact hv
  · exact h p h1

theorem tableWF_mapDelete {m : List (String × String)} {k : String}
    (h : TableWF m) : TableWF (mapDelete m k) :=
  fun p hp => h p (mem_mapDelete hp)

/-! Branch characterizations of the operations. -/

theorem applyWrapup_pendingWrapups (env : Env) (s : ComponentState) (I c : String) :
    (_applyWrapupCode env s I c).st.pendingWrapups = mapDelete s.pendingWrapups I := by
  simp only [_applyWrapupCode]
  split
  · rfl
  · split
    · rfl
    · rfl

theorem applyWrapup_st_rest (env : Env) (s : ComponentState) (I c : String) :
    (_applyWrapupCode env s I c).st
      = { s with pendingWrapups := mapDelete s.pendingWrapups I } := by
  simp only [_applyWrapupCode]
  split
  · rfl
  · split
    · rfl
    · rfl

theorem applyWrapup_applyAttempts (env : Env) (s : ComponentState) (I c : String) :
    applyAttempts (_applyWrapupCode env s I c).events = [Event.applyAttempt I c] := by
  simp only [_applyWrapupCode]
  split
  · simp [applyAttempts, List.filter_cons, Event.isApplyAttempt]
  · split
    · simp [applyAttempts, List.filter_cons, Event.isApplyAttempt]
    · simp [applyAttempts, List.filter_cons, Event.isApplyAttempt]

theorem endCall_queue_branch (env : Env) (s : ComponentState) (I c : String)
    (resp : EndResponse)
    (hI : getInteractionId env.taskMap = some I)
    (hIne : I ≠ "")
    (hr : env.endResult = some resp)
    (hst : resp.interactionState ≠ some "wrapUp")
    (hc : c ≠ "") :
    endCall env s (some c)
      = { st := { s with pendingWrapups := mapSet s.pendingWrapups I c }
          events := [Event.endReq I]
          logs := [(LogLevel.info, "call end request sent"),
                   (LogLevel.info, "queued wrapup code")] } := by
  simp only [endCall, hI, hr]
  rw [if_neg hIne, if_neg (fun hand => hst hand.2), if_pos hc]

theorem endCall_immediate_branch (env : Env) (s : ComponentState) (I c : String)
    (resp : EndResponse)
    (hI : getInteractionId env.taskMap = some I)
    (hIne : I ≠ "")
    (hr : env.endResult = some resp)
    (hst : resp.interactionState = some "wrapUp")
    (hc : c ≠ "") :
    endCall env s (some c)
      = { _applyWrapupCode env s I c with
          events := Event.endReq I :: (_applyWrapupCode env s I c).events
          logs := (LogLevel.info, "call end request sent") ::
            (LogLevel.info, "immediate wrapup state after end") ::
            (_applyWrapupCode env s I c).logs } := by
  simp only [endCall, hI, hr]
  rw [if_neg hIne, if_pos ⟨hc, hst⟩]

theorem endCall_fail_branch (env : Env) (s : ComponentState) (c : String) (I : String)
    (hI : getInteractionId env.taskMap = some I)
    (hIne : I ≠ "")
    (hr : env.endResult = none)
    (hc : c ≠ "") :
    endCall env s (some c)
      = { st := { s with pendingWrapups := mapDelete s.pendingWrapups I }
          events := [Event.endReq I]
          logs := [(LogLevel.error, "error ending call"),
                   (LogLevel.warn, "removed pending wrapup due to end failure")] } := by
  simp only [endCall, hI, hr]
  rw [if_neg hIne, if_pos hc]

theorem endCall_fail_untruthy (env : Env) (s : ComponentState) (wc : Option String)
    (I : String)
    (hI : getInteractionId env.taskMap = some I)
    (hIne : I ≠ "")
    (hr : env.endResult = none)
    (hwc : optTruthy wc = false) :
    endCall env s wc
      = { st := s, events := [Event.endReq I]
          logs := [(LogLevel.error, "error ending call")] } := by
  cases wc with
  | none =>
      simp only [endCall, hI, hr]
      rw [if_neg hIne]
  | some c =>
      have hc : ¬ c ≠ "" := by
        simpa [optTruthy] using hwc
      simp only [endCall, hI, hr]
      rw [if_neg hIne, if_neg hc]

theorem handler_wrapup_apply (env : Env) (s : ComponentState) (I c : String)
    (hc : mapGet s.pendingWrapups I = some c) (hne : c ≠ "") :
    _handleInteractionStateChange env s I "Wrapup"
      = { _applyWrapupCode env s I c with
          logs := (LogLevel.info, "handler triggered") ::
            (LogLevel.info, "state changed") ::
            (LogLevel.info, "applying pending wrapup") ::
            (_applyWrapupCode env s I c).logs } := by
  simp only [_handleInteractionStateChange, hc]
  simp [hne]

theorem handler_wrapup_noentry (env : Env) (s : ComponentState) (I : String)
    (hc : mapGet s.pendingWrapups I = none) :
    _handleInteractionStateChange env s I "Wrapup"
      = { st := s, events := []
          logs := [(LogLevel.info, "handler triggered"),
                   (LogLevel.info, "state changed"),
                   (LogLevel.info, "no pending wrapup code found")] } := by
  simp only [_handleInteractionStateChange, hc]
  simp

theorem handler_terminal_discards (env : Env) (s : ComponentState) (I c n : String)
    (hc : mapGet s.pendingWrapups I = some c)
    (hn : n = "Closed" ∨ n = "Ended") :
    _handleInteractionStateChange env s I n
      = { st := { s with pendingWrapups := mapDelete s.pendingWrapups I }
          events := []
          logs := [(LogLevel.info, "handler triggered"),
                   (LogLevel.info, "state changed"),
                   (LogLevel.warn, "cleared pending wrapup on terminal state")] } := by
  have hnw : ¬ n = "Wrapup" := by
    rcases hn with h | h <;> rw [h] <;> decide
  simp only [_handleInteractionStateChange]
  rw [if_neg hnw, if_pos hn]
  simp [hc]

theorem endCall_no_interaction (env : Env) (s : ComponentState) (wc : Option String)
    (hI : getInteractionId env.taskMap = none) :
    endCall env s wc
      = { st := s, events := []
          logs := [(LogLevel.warn, "no active interaction id found")] } := by
  simp only [endCall, hI]

theorem endCall_empty_id (env : Env) (s : ComponentState) (wc : Option String)
    (hI : getInteractionId env.taskMap = some "") :
    endCall env s wc
      = { st := s, events := []
          logs := [(LogLevel.warn, "no active interaction id found")] } := by
  simp [endCall, hI]

theorem endCall_success_untruthy (env : Env) (s : ComponentState) (wc : Option String)
    (I : String) (resp : EndResponse)
    (hI : getInteractionId env.taskMap = some I)
    (hIne : I ≠ "")
    (hr : env.endResult = some resp)
    (hwc : optTruthy wc = false) :
    endCall env s wc
      = { st := s, events := [Event.endReq I]
          logs := [(LogLevel.info, "call end request sent")] } := by
  cases wc with
  | none =>
      simp only [endCall, hI, hr]
      rw [if_neg hIne]
  | some c =>
      have hc : ¬ c ≠ "" := by
        simpa [optTruthy] using hwc
      simp only [endCall, hI, hr]
      rw [if_neg hIne, if_neg (fun hand => hc hand.1), if_neg hc]

theorem handler_wrapup_empty (env : Env) (s : ComponentState) (I : String)
    (hc : mapGet s.pendingWrapups I = some "") :
    _handleInteractionStateChange env s I "Wrapup"
      = { st := s, events := []
          logs := [(LogLevel.info, "handler triggered"),
                   (LogLevel.info, "state changed"),
                   (LogLevel.info, "no pending wrapup code found")] } := by
  simp only [_handleInteractionStateChange, hc]
  simp

theorem handler_terminal_noentry (env : Env) (s : ComponentState) (I n : String)
    (hc : mapGet s.pendingWrapups I = none)
    (hn : n = "Closed" ∨ n = "Ended") :
    _handleInteractionStateChange env s I n
      = { st := s, events := []
          logs := [(LogLevel.info, "handler triggered"),
                   (LogLevel.info, "state changed")] } := by
  have hnw : ¬ n = "Wrapup" := by
    rcases hn with h | h <;> rw [h] <;> decide
  simp only [_handleInteractionStateChange]
  rw [if_neg hnw, if_pos hn]
  simp [hc]

theorem handler_other_state (env : Env) (s : ComponentState) (I n : String)
    (hnw : ¬ n = "Wrapup") (hnt : ¬ (n = "Closed" ∨ n = "Ended")) :
    _handleInteractionStateChange env s I n
      = { st := s, events := []
          logs := [(LogLevel.info, "handler triggered"),
                   (LogLevel.info, "state changed")] } := by
  simp only [_handleInteractionStateChange]
  rw [if_neg hnw, if_neg hnt]

/-! Reachability invariant: the pending table only ever stores truthy
(non-empty) wrap-up code ids, because `endCall` guards every insertion
with the JS truthiness check.  The two operations that write the table
both preserve the invariant, so every table reachable from the empty
table of the constructor satisfies `TableWF`. -/

theorem endCall_tableWF (env : Env) (s : ComponentState) (wc : Option String)
    (h : TableWF s.pendingWrapups) : TableWF (endCall env s wc).st.pendingWrapups := by
  cases hI : getInteractionId env.taskMap with
  | none => rw [endCall_no_interaction env s wc hI]; exact h
  | some I =>
      by_cases hIe : I = ""
      · rw [hIe] at hI
        rw [endCall_empty_id env s wc hI]
        exact h
      · cases hr : env.endResult with
        | none =>
            by_cases hwc : optTruthy wc = true
            · rcases wc with _ | c
              · simp [optTruthy] at hwc
              · have hc : c ≠ "" := by simpa [optTruthy] using hwc
                rw [endCall_fail_branch env s c I hI hIe hr hc]
                exact tableWF_mapDelete h
            · rw [endCall_fail_untruthy env s wc I hI hIe hr (by simpa using hwc)]
              exact h
        | some resp =>
            by_cases hwc : optTruthy wc = true
            · rcases wc with _ | c
              · simp [optTruthy] at hwc
              · have hc : c ≠ "" := by simpa [optTruthy] using hwc
                by_cases hst : resp.interactionState = some "wrapUp"
                · rw [endCall_immediate_branch env s I c resp hI hIe hr hst hc]
                  show TableWF (_applyWrapupCode env s I c).st.pendingWrapups
                  rw [applyWrapup_pendingWrapups]
                  exact tableWF_mapDelete h
                · rw [endCall_queue_branch env s I c resp hI hIe hr hst hc]
                  exact tableWF_mapSet h hc
            · rw [endCall_success_untruthy env s wc I resp hI hIe hr (by simpa using hwc)]
              exact h

theorem handler_tableWF (env : Env) (s : ComponentState) (I n : String)
    (h : TableWF s.pendingWrapups) :
    TableWF (_handleInteractionStateChange env s I n).st.pendingWrapups := by
  by_cases hn : n = "Wrapup"
  · subst hn
    cases hc : mapGet s.pendingWrapups I with
    | none => rw [handler_wrapup_noentry env s I hc]; exact h
    | some c =>
        by_cases hne : c ≠ ""
        · rw [handler_wrapup_apply env s I c hc hne]
          show TableWF (_applyWrapupCode env s I c).st.pendingWrapups
          rw [applyWrapup_pendingWrapups]
          exact tableWF_mapDelete h
        · have hce : c = "" := by simpa using hne
          rw [hce] at hc
          rw [handler_wrapup_empty env s I hc]
          exact h
  · by_cases hterm : n = "Closed" ∨ n = "Ended"
    · cases hc : mapGet s.pendingWrapups I with
      | none => rw [handler_terminal_noentry env s I n hc hterm]; exact h
      | some c =>
          rw [handler_terminal_discards env s I c n hc hterm]
          exact tableWF_mapDelete h
    · rw [handler_other_state env s I n hn hterm]
      exact h

theorem findDefaultLoop_split (pre : List IdleCode) (item : IdleCode)
    (post : List IdleCode)
    (hpre : ∀ p ∈ pre, p.isDefault = false) (hitem : item.isDefault = true) :
    findDefaultLoop (pre ++ item :: post) = some item := by
  induction pre with
  | nil => simp [findDefaultLoop, hitem]
  | cons q rest ih =>
      have hq : q.isDefault = false := hpre q (List.mem_cons_self _ _)
      rw [List.cons_append]
      simp [findDefaultLoop, hq]
      exact ih fun p hp => hpre p (List.mem_cons_of_mem _ hp)

theorem findDefaultLoop_none (l : List IdleCode)
    (h : ∀ p ∈ l, p.isDefault = false) : findDefaultLoop l = none := by
  induction l with
  | nil => rfl
  | cons q rest ih =>
      simp [findDefaultLoop, h q (List.mem_cons_self _ _)]
      exact ih fun p hp => h p (List.mem_cons_of_mem _ hp)

/-! Claim theorems. -/

/-- Claim C1, counterexample.  The claim reads the end response state as
the literal string `Wrapup`, but `endCall` compares against `wrapUp`
(src/index.js line 265).  With an end response reporting exactly
`"Wrapup"` the code queues a pending entry and never invokes the apply
step, refuting the claimed immediate-apply behaviour at this input. -/
theorem C1_counterexample :
    ¬ (applyAttempts (endCall envWrapupCap sInit (some "wrapA")).events
         = [Event.applyAttempt "int1" "wrapA"]
       ∧ mapGet (endCall envWrapupCap sInit (some "wrapA")).st.pendingWrapups "int1"
         = none) := by
  decide

/-- Claim C1 (amended: the immediate-apply comparison is against the
literal response state `"wrapUp"`, not `"Wrapup"`).  When `endCall`
resolves a truthy (non-empty) interaction id `I` — the falsy guard of
line 243 otherwise stops the call — the end request succeeds, the
response reports state `"wrapUp"` and a truthy wrap-up code was supplied,
the apply step runs exactly once with `I` and the code, and no pending
entry for `I` exists afterwards. -/
theorem C1_end_wrapup_applies_once (env : Env) (s : ComponentState) (I c : String)
    (resp : EndResponse)
    (hI : getInteractionId env.taskMap = some I)
    (hIne : I ≠ "")
    (hr : env.endResult = some resp)
    (hst : resp.interactionState = some "wrapUp")
    (hc : c ≠ "") :
    applyAttempts (endCall env s (some c)).events = [Event.applyAttempt I c]
      ∧ mapGet (endCall env s (some c)).st.pendingWrapups I = none := by
  rw [endCall_immediate_branch env s I c resp hI hIne hr hst hc]
  constructor
  · show applyAttempts (Event.endReq I :: (_applyWrapupCode env s I c).events)
      = [Event.applyAttempt I c]
    have h1 := applyWrapup_applyAttempts env s I c
    simpa [applyAttempts, List.filter_cons, Event.isApplyAttempt] using h1
  · show mapGet (_applyWrapupCode env s I c).st.pendingWrapups I = none
    rw [applyWrapup_pendingWrapups]
    exact mapGet_mapDelete_self _ _

/-- Claim C1, witness: concrete run of the amended theorem. -/
theorem C1_end_wrapup_applies_once_witness :
    applyAttempts (endCall envWrapUpLow sInit (some "wrapA")).events
        = [Event.applyAttempt "int1" "wrapA"]
      ∧ mapGet (endCall envWrapUpLow sInit (some "wrapA")).st.pendingWrapups "int1"
        = none :=
  C1_end_wrapup_applies_once envWrapUpLow sInit "int1" "wrapA"
    { interactionState := some "wrapUp" } rfl (by decide) rfl rfl (by decide)

/-- Claim C2, counterexample.  `"wrapUp"` differs from the claim's
`"Wrapup"`, yet an end response reporting `"wrapUp"` triggers the
immediate apply: no pending entry is recorded and an apply is issued,
refuting the claim at this input. -/
theorem C2_counterexample :
    ¬ (mapGet (endCall envWrapUpLow sInit (some "wrapA")).st.pendingWrapups "int1"
         = some "wrapA"
       ∧ applyAttempts (endCall envWrapUpLow sInit (some "wrapA")).events = []) := by
  decide

/-- Claim C2 (amended: the state that short-circuits to the immediate
apply is the literal `"wrapUp"`, not `"Wrapup"`).  When `endCall`
resolves a truthy (non-empty) interaction id `I`, the end request succeeds
with a response state different from `"wrapUp"` and a truthy code is
supplied, the pending table maps `I` to the code immediately and no apply
step or wrap-up request was issued by this call. -/
theorem C2_end_other_state_queues (env : Env) (s : ComponentState) (I c : String)
    (resp : EndResponse)
    (hI : getInteractionId env.taskMap = some I)
    (hIne : I ≠ "")
    (hr : env.endResult = some resp)
    (hst : resp.interactionState ≠ some "wrapUp")
    (hc : c ≠ "") :
    mapGet (endCall env s (some c)).st.pendingWrapups I = some c
      ∧ applyAttempts (endCall env s (some c)).events = []
      ∧ wrapupReqs (endCall env s (some c)).events = [] := by
  rw [endCall_queue_branch env s I c resp hI hIne hr hst hc]
  refine ⟨mapGet_mapSet_self _ _ _, ?_, ?_⟩
  · simp [applyAttempts, Event.isApplyAttempt]
  · simp [wrapupReqs, Event.isWrapupReq]

/-- Claim C2, witness: concrete run of the amended theorem with response
state `active`. -/
theorem C2_end_other_state_queues_witness :
    mapGet (endCall envBase sInit (some "wrapA")).st.pendingWrapups "int1"
        = some "wrapA"
      ∧ applyAttempts (endCall envBase sInit (some "wrapA")).events = []
      ∧ wrapupReqs (endCall envBase sInit (some "wrapA")).events = [] :=
  C2_end_other_state_queues envBase sInit "int1" "wrapA"
    { interactionState := some "active" } rfl (by decide) rfl (by decide) (by decide)

/-- Claim C3, counterexample.  On end-request failure the code deletes
the pending entry only when this call supplied a truthy code
(src/index.js lines 283-288).  A failing `endCall` with no code, issued
while a previously recorded entry for the interaction exists, leaves that
entry in the table, refuting the claimed unconditional discard. -/
theorem C3_counterexample :
    ¬ mapGet (endCall envEndFail sPrior none).st.pendingWrapups "int1" = none := by
  decide

/-- Claim C3 (amended: the discard on end-request failure happens only
when a truthy wrap-up code was supplied to this call; with no code the
table is left unchanged).  The call must resolve a truthy (non-empty)
interaction id, else the line 243 guard stops it before the end request.
On failure no apply step or wrap-up request is issued either way. -/
theorem C3_end_failure_discards (env : Env) (s : ComponentState)
    (wc : Option String) (I : String)
    (hI : getInteractionId env.taskMap = some I)
    (hIne : I ≠ "")
    (hr : env.endResult = none) :
    (optTruthy wc = true → mapGet (endCall env s wc).st.pendingWrapups I = none)
      ∧ (optTruthy wc = false → (endCall env s wc).st = s)
      ∧ applyAttempts (endCall env s wc).events = []
      ∧ wrapupReqs (endCall env s wc).events = [] := by
  by_cases hwc : optTruthy wc = true
  · rcases wc with _ | c
    · simp [optTruthy] at hwc
    · have hc : c ≠ "" := by simpa [optTruthy] using hwc
      rw [endCall_fail_branch env s c I hI hIne hr hc]
      refine ⟨fun _ => mapGet_mapDelete_self _ _, fun hf => ?_, ?_, ?_⟩
      · rw [hwc] at hf; exact Bool.noConfusion hf
      · simp [applyAttempts, Event.isApplyAttempt]
      · simp [wrapupReqs, Event.isWrapupReq]
  · have hf : optTruthy wc = false := by simpa using hwc
    rw [endCall_fail_untruthy env s wc I hI hIne hr hf]
    refine ⟨fun ht => ?_, fun _ => rfl, ?_, ?_⟩
    · rw [ht] at hf; exact Bool.noConfusion hf
    · simp [applyAttempts, Event.isApplyAttempt]
    · simp [wrapupReqs, Event.isWrapupReq]

/-- Claim C3, witness: a failing end call with a truthy code leaves no
pending entry for the interaction. -/
theorem C3_end_failure_discards_witness :
    mapGet (endCall envEndFail sInit (some "wrapC")).st.pendingWrapups "int1" = none :=
  (C3_end_failure_discards envEndFail sInit (some "wrapC") "int1" rfl (by decide) rfl).1
    (by decide)

/-- Claim C4.  A `Wrapup` lifecycle event for interaction `I` with a
pending entry (reachable entries are truthy, see `endCall_tableWF` and
`handler_tableWF`) triggers exactly one apply attempt with the stored code
and removes the entry — for every environment, so regardless of whether
the apply request succeeds or fails (`env.applyOk`); with no pending entry
the event changes no state and issues no request. -/
theorem C4_wrapup_event_applies_once (env : Env) (s : ComponentState) (I : String) :
    (∀ c, mapGet s.pendingWrapups I = some c → c ≠ "" →
        applyAttempts (_handleInteractionStateChange env s I "Wrapup").events
            = [Event.applyAttempt I c]
          ∧ mapGet (_handleInteractionStateChange env s I "Wrapup").st.pendingWrapups I
            = none)
      ∧ (mapGet s.pendingWrapups I = none →
        (_handleInteractionStateChange env s I "Wrapup").st = s
          ∧ (_handleInteractionStateChange env s I "Wrapup").events = []) := by
  constructor
  · intro c hc hne
    rw [handler_wrapup_apply env s I c hc hne]
    constructor
    · show applyAttempts (_applyWrapupCode env s I c).events = [Event.applyAttempt I c]
      exact applyWrapup_applyAttempts env s I c
    · show mapGet (_applyWrapupCode env s I c).st.pendingWrapups I = none
      rw [applyWrapup_pendingWrapups]
      exact mapGet_mapDelete_self _ _
  · intro hc
    rw [handler_wrapup_noentry env s I hc]
    exact ⟨rfl, rfl⟩

/-- Claim C4, witness: a pending entry is applied exactly once and
removed; the same handler on an empty table is a no-op. -/
theorem C4_wrapup_event_applies_once_witness :
    applyAttempts (_handleInteractionStateChange envBase sPending4 "int4" "Wrapup").events
        = [Event.applyAttempt "int4" "wrapD"]
      ∧ mapGet (_handleInteractionStateChange envBase sPending4 "int4" "Wrapup").st.pendingWrapups "int4"
        = none :=
  (C4_wrapup_event_applies_once envBase sPending4 "int4").1 "wrapD" rfl (by decide)

/-- Claim C5.  A `Closed` or `Ended` lifecycle event for interaction `I`
with a pending entry removes the entry without issuing any request, and
exactly one warning is logged. -/
theorem C5_terminal_event_discards (env : Env) (s : ComponentState)
    (I c n : String)
    (hc : mapGet s.pendingWrapups I = some c)
    (hn : n = "Closed" ∨ n = "Ended") :
    mapGet (_handleInteractionStateChange env s I n).st.pendingWrapups I = none
      ∧ (_handleInteractionStateChange env s I n).events = []
      ∧ warnCount (_handleInteractionStateChange env s I n).logs = 1 := by
  rw [handler_terminal_discards env s I c n hc hn]
  exact ⟨mapGet_mapDelete_self _ _, rfl, rfl⟩

/-- Claim C5, witness: scenario F, an `Ended` event discards the entry. -/
theorem C5_terminal_event_discards_witness :
    mapGet (_handleInteractionStateChange envBase sPending4 "int4" "Ended").st.pendingWrapups "int4"
        = none
      ∧ (_handleInteractionStateChange envBase sPending4 "int4" "Ended").events = []
      ∧ warnCount (_handleInteractionStateChange envBase sPending4 "int4" "Ended").logs = 1 :=
  C5_terminal_event_discards envBase sPending4 "int4" "wrapD" "Ended" rfl (Or.inr rfl)

/-- Claim C6.  Two `endCall`s for the same truthy (non-empty)
interaction id `I` before resolution (both end requests succeed with a
non-`wrapUp` state, both codes truthy) leave the table mapping `I` to the second code only: the
lookup yields `codeB` and exactly one entry for `I` exists. -/
theorem C6_second_end_call_overwrites (env1 env2 : Env) (s : ComponentState)
    (I cA cB : String) (resp1 resp2 : EndResponse)
    (hnodup : (keysOf s.pendingWrapups).Nodup)
    (hIne : I ≠ "")
    (hI1 : getInteractionId env1.taskMap = some I)
    (hr1 : env1.endResult = some resp1)
    (hst1 : resp1.interactionState ≠ some "wrapUp")
    (hI2 : getInteractionId env2.taskMap = some I)
    (hr2 : env2.endResult = some resp2)
    (hst2 : resp2.interactionState ≠ some "wrapUp")
    (hcA : cA ≠ "") (hcB : cB ≠ "") :
    mapGet (endCall env2 (endCall env1 s (some cA)).st (some cB)).st.pendingWrapups I
        = some cB
      ∧ countKey (endCall env2 (endCall env1 s (some cA)).st (some cB)).st.pendingWrapups I
        = 1 := by
  rw [endCall_queue_branch env1 s I cA resp1 hI1 hIne hr1 hst1 hcA]
  rw [endCall_queue_branch env2 _ I cB resp2 hI2 hIne hr2 hst2 hcB]
  constructor
  · exact mapGet_mapSet_self _ _ _
  · exact countKey_mapSet_self _ _ (nodup_keysOf_mapSet _ _ hnodup)

/-- Claim C6, witness: `wrapA` then `wrapB` for `int1` leaves only
`wrapB`. -/
theorem C6_second_end_call_overwrites_witness :
    mapGet (endCall envBase (endCall envBase sInit (some "wrapA")).st (some "wrapB")).st.pendingWrapups "int1"
        = some "wrapB"
      ∧ countKey (endCall envBase (endCall envBase sInit (some "wrapA")).st (some "wrapB")).st.pendingWrapups "int1"
        = 1 :=
  C6_second_end_call_overwrites envBase envBase sInit "int1" "wrapA" "wrapB"
    { interactionState := some "active" } { interactionState := some "active" }
    (by decide) (by decide) rfl rfl (by decide) rfl rfl (by decide) (by decide) (by decide)

/-- Claim C7.  Starting from the constructor's sentinel `0`, the resolver
stores the id of the first element in list order flagged
`isDefault === true` (the elements before it all unflagged), and leaves
the sentinel `0` when the list is empty, absent, or has no flagged
element. -/
theorem C7_default_aux_resolution (idleCodes : Option (List IdleCode)) :
    (∀ pre item post, idleCodes.getD [] = pre ++ item :: post →
        (∀ p ∈ pre, p.isDefault = false) → item.isDefault = true →
        (_findDefaultAuxCode idleCodes (AuxVal.num 0)).1 = AuxVal.str item.id)
      ∧ ((∀ p ∈ idleCodes.getD [], p.isDefault = false) →
        (_findDefaultAuxCode idleCodes (AuxVal.num 0)).1 = AuxVal.num 0) := by
  constructor
  · intro pre item post hsplit hpre hitem
    have hloop : findDefaultLoop (idleCodes.getD []) = some item := by
      rw [hsplit]
      exact findDefaultLoop_split pre item post hpre hitem
    have hlen : (idleCodes.getD []).length > 0 := by
      rw [hsplit]
      simp
    simp only [_findDefaultAuxCode]
    rw [if_pos hlen, hloop]
  · intro hall
    simp only [_findDefaultAuxCode]
    by_cases hlen : (idleCodes.getD []).length > 0
    · rw [if_pos hlen, findDefaultLoop_none _ hall]
    · rw [if_neg hlen]

/-- Claim C7, witness: scenario A, the list with ids `7` (unflagged) and
`3` (flagged) resolves to `3`. -/
theorem C7_default_aux_resolution_witness :
    (_findDefaultAuxCode
        (some [{ id := "7", isDefault := false }, { id := "3", isDefault := true }])
        (AuxVal.num 0)).1
      = AuxVal.str "3" :=
  (C7_default_aux_resolution
      (some [{ id := "7", isDefault := false }, { id := "3", isDefault := true }])).1
    [{ id := "7", isDefault := false }] { id := "3", isDefault := true } []
    rfl (by decide) rfl

/-- Claim C8.  While the SDK-ready flag is false, `changeState` issues no
SDK request, leaves the component state (pending table and default aux
code included) unchanged, and only logs a warning — the command is
rejected, not queued. -/
theorem C8_dispatcher_gated (env : Env) (s : ComponentState) (command : String)
    (h : s.isSdkInitialized = false) :
    changeState env s command
      = { st := s, events := []
          logs := [(LogLevel.warn, "state change attempted before sdk ready")] } := by
  simp only [changeState]
  rw [if_pos h]

/-- Claim C8, witness: an `EndTask` command before bootstrap is a no-op
beyond a warning. -/
theorem C8_dispatcher_gated_witness :
    changeState envBase sNotReady "EndTask"
      = { st := sNotReady, events := []
          logs := [(LogLevel.warn, "state change attempted before sdk ready")] } :=
  C8_dispatcher_gated envBase sNotReady "EndTask" rfl

/-- Claim C9.  When the supplied wrap-up code id is absent from the
directory's current wrap-up-code list, the apply step issues no wrap-up
request to the bus, logs exactly one error, and the pending entry for the
interaction is removed anyway. -/
theorem C9_lookup_miss_consumes_entry (env : Env) (s : ComponentState) (I c : String)
    (h : ∀ code ∈ env.wrapupCodes.getD [], code.id ≠ c) :
    wrapupReqs (_applyWrapupCode env s I c).events = []
      ∧ errorCount (_applyWrapupCode env s I c).logs = 1
      ∧ mapGet (_applyWrapupCode env s I c).st.pendingWrapups I = none := by
  have hfind : (env.wrapupCodes.getD []).find? (fun code => code.id == c) = none := by
    rw [List.find?_eq_none]
    intro x hx
    simpa using h x hx
  refine ⟨?_, ?_, ?_⟩
  · simp only [_applyWrapupCode, _getWrapupCodeDetails, hfind]
    simp [wrapupReqs, Event.isWrapupReq]
  · simp only [_applyWrapupCode, _getWrapupCodeDetails, hfind]
    simp [errorCount, LogLevel.isError]
  · rw [applyWrapup_pendingWrapups]
    exact mapGet_mapDelete_self _ _

/-- Claim C9, witness: applying the unknown id `missing` against a
directory that only lists `wrapA`. -/
theorem C9_lookup_miss_consumes_entry_witness :
    wrapupReqs (_applyWrapupCode envBase sInit "int1" "missing").events = []
      ∧ errorCount (_applyWrapupCode envBase sInit "int1" "missing").logs = 1
      ∧ mapGet (_applyWrapupCode envBase sInit "int1" "missing").st.pendingWrapups "int1"
        = none :=
  C9_lookup_miss_consumes_entry envBase sInit "int1" "missing" (by decide)

/-- Claim C10.  When the directory lookup finds the wrap-up code but the
found entry has a falsy `id` or `name`, the apply step issues no wrap-up
request, logs exactly one error, and the pending entry is still
removed. -/
theorem C10_falsy_details_consume_entry (env : Env) (s : ComponentState)
    (I c : String) (d : WrapupCode)
    (hfind : (env.wrapupCodes.getD []).find? (fun code => code.id == c) = some d)
    (hfalsy : d.id = "" ∨ d.name = "") :
    wrapupReqs (_applyWrapupCode env s I c).events = []
      ∧ errorCount (_applyWrapupCode env s I c).logs = 1
      ∧ mapGet (_applyWrapupCode env s I c).st.pendingWrapups I = none := by
  have hcond : ¬ (d.id ≠ "" ∧ d.name ≠ "") := by
    rcases hfalsy with h | h <;> simp [h]
  refine ⟨?_, ?_, ?_⟩
  · simp only [_applyWrapupCode, _getWrapupCodeDetails, hfind]
    rw [if_neg hcond]
    simp [wrapupReqs, Event.isWrapupReq]
  · simp only [_applyWrapupCode, _getWrapupCodeDetails, hfind]
    rw [if_neg hcond]
    simp [errorCount, LogLevel.isError]
  · rw [applyWrapup_pendingWrapups]
    exact mapGet_mapDelete_self _ _

/-- Claim C10, witness: the directory lists a code `w` with an empty
name; applying `w` issues nothing and still consumes the entry. -/
theorem C10_falsy_details_consume_entry_witness :
    wrapupReqs (_applyWrapupCode envFalsyName sInit "int1" "w").events = []
      ∧ errorCount (_applyWrapupCode envFalsyName sInit "int1" "w").logs = 1
      ∧ mapGet (_applyWrapupCode envFalsyName sInit "int1" "w").st.pendingWrapups "int1"
        = none :=
  C10_falsy_details_consume_entry envFalsyName sInit "int1" "w"
    { id := "w", name := "" } (by decide) (Or.inr rfl)
